import Mathlib

/-!
Verification of the Klaviyo campaign-analysis scripts.

The Python sources are shallowly embedded: HTTP traffic is modelled by a
finite list of scripted responses consumed in order by the fetch loops;
Python sets of profile ids are modelled as duplicate-free lists built by
insert-if-absent; decoded JSON page bodies are records of optional fields
mirroring the defensive `.get` chains of the source.
-/

namespace Klaviyo

/-! ## Data model for `analyze_segments.py` -/

/-- A segment as accumulated by `get_all_segments`: a dict with keys
`id` and `name` (the latter defaulted to `""` when absent). -/
structure Segment where
  id : String
  name : String
deriving DecidableEq

/-- A decoded JSON body of one profiles page, as the source accesses it:
`data.get("data", [])` (a list of profile ids, the only field the loop
reads from each profile record) and `data.get("links", {}).get("next")`.
`dataField = none` models a body with no `data` key; `linksField = none`
models a body with no `links` key; `linksField = some none` models a
`links` object with no `next` (or a null `next`). -/
structure Page where
  dataField : Option (List String)
  linksField : Option (Option String)
deriving DecidableEq

/-- One scripted HTTP response: a status code and a decoded body.  The
body is only inspected when the status is 200, mirroring the source. -/
structure Response where
  status : Nat
  body : Page
deriving DecidableEq

/-- `data.get("data", [])` of `get_segment_profile_ids`. -/
def pageData (p : Page) : List String :=
  p.dataField.getD []

/-- `data.get("links", {}).get("next")` of `get_segment_profile_ids`. -/
def pageNext (p : Page) : Option String :=
  p.linksField.getD none

/-- `profile_ids.add(profile["id"])`: a Python `set` is modelled as a
duplicate-free list, so insertion appends only when the id is absent. -/
def addId (acc : List String) (i : String) : List String :=
  if i ∈ acc then acc else acc ++ [i]

/-- Python's `"?" in url`: a one-character substring test is character
containment. -/
def urlHasQuery (url : String) : Bool :=
  url.data.contains '?'

/-- The observables of one run of the `get_segment_profile_ids` while
loop.  `ids` is the returned set of profile ids; `reqs` records, in
order, each request's url together with whether the `page[size]` params
were attached (the source attaches them iff `"?" not in url`);
`errorStatus` is the status code printed by the `Error:` line on a
non-200, non-429 response (the function itself returns only the set);
`rlSleeps` counts the 30-second sleeps of the 429 branch; `pages` counts
the successfully decoded pages; `truncated` records the cause of the
loop's exit: `true` iff the `while url and len(profile_ids) <
max_profiles` condition failed on its length conjunct while the url was
still live (cap reached), `false` when pagination ended or the loop
broke on an error. -/
structure FetchResult where
  ids : List String
  reqs : List (String × Bool)
  errorStatus : Option Nat
  rlSleeps : Nat
  pages : Nat
  truncated : Bool
deriving DecidableEq

/-- The `while url and len(profile_ids) < max_profiles` loop of
`get_segment_profile_ids`, consuming one scripted response per request.
`none` means the script was exhausted while the loop still wanted to
issue a request, i.e. the loop did not terminate within the scripted
responses.  On 429 the source sleeps 30 seconds and retries the same
url (`continue`); on any other non-200 status it prints the status and
breaks with the partial set; on 200 it inserts every id of the page and
follows the `next` link, a missing or empty (Python-falsy) `next`
ending the loop. -/
def fetchLoop : List Response → String → List String → Nat →
    List (String × Bool) → Nat → Nat → Option FetchResult
  | [], _, acc, maxP, reqs, rl, pages =>
      if acc.length < maxP then none
      else some ⟨acc, reqs, none, rl, pages, true⟩
  | r :: rest, url, acc, maxP, reqs, rl, pages =>
      if acc.length < maxP then
        let reqs2 := reqs ++ [(url, !urlHasQuery url)]
        if r.status = 429 then
          fetchLoop rest url acc maxP reqs2 (rl + 1) pages
        else if r.status = 200 then
          let acc2 := (pageData r.body).foldl addId acc
          match pageNext r.body with
          | some u =>
              if u = "" then some ⟨acc2, reqs2, none, rl, pages + 1, false⟩
              else fetchLoop rest u acc2 maxP reqs2 rl (pages + 1)
          | none => some ⟨acc2, reqs2, none, rl, pages + 1, false⟩
        else some ⟨acc, reqs2, some r.status, rl, pages, false⟩
      else some ⟨acc, reqs, none, rl, pages, true⟩

/-- The first request target built by `get_segment_profile_ids`. -/
def profileStartUrl (segmentId : String) : String :=
  "https://a.klaviyo.com/api/segments/" ++ segmentId ++ "/profiles/"

/-- `get_segment_profile_ids(segment_id, segment_name, max_profiles)`
run against a scripted response sequence (the `segment_name` parameter
only feeds progress prints and is omitted). -/
def get_segment_profile_ids (script : List Response) (segmentId : String)
    (maxProfiles : Nat) : Option FetchResult :=
  fetchLoop script (profileStartUrl segmentId) [] maxProfiles [] 0 0

/-- A raw segment record of one segments page: `segment["id"]` and
`segment["attributes"].get("name", "")`. -/
structure RawSegment where
  id : String
  nameField : Option String
deriving DecidableEq

/-- A decoded JSON body of one segments page, with the same optional
`data` and `links`/`next` shape as profile pages. -/
structure SegPage where
  dataField : Option (List RawSegment)
  linksField : Option (Option String)
deriving DecidableEq

/-- One scripted HTTP response to a segments-page request. -/
structure SegResponse where
  status : Nat
  body : SegPage
deriving DecidableEq

/-- The dict appended per raw record by `get_all_segments`. -/
def extractSegment (r : RawSegment) : Segment :=
  ⟨r.id, r.nameField.getD ""⟩

/-- `data.get("links", {}).get("next")` of `get_all_segments`. -/
def segPageNext (p : SegPage) : Option String :=
  p.linksField.getD none

/-- The observables of one run of the `get_all_segments` while loop:
the returned list of segments and the status code printed by the
`Error:` line when a non-200 response aborted the loop. -/
structure SegFetchResult where
  segments : List Segment
  errorStatus : Option Nat
deriving DecidableEq

/-- The `while url` loop of `get_all_segments`: on a non-200 status it
prints the status and returns the partial list; on 200 it appends the
extracted records and follows `next`, a missing or empty (Python-falsy)
`next` ending the loop.  `none` means the script ran out while the loop
still wanted a response. -/
def segLoop : List SegResponse → List Segment → Option SegFetchResult
  | [], _ => none
  | r :: rest, acc =>
      if r.status = 200 then
        let acc2 := acc ++ ((r.body.dataField.getD []).map extractSegment)
        match segPageNext r.body with
        | some u =>
            if u = "" then some ⟨acc2, none⟩
            else segLoop rest acc2
        | none => some ⟨acc2, none⟩
      else some ⟨acc, some r.status⟩

/-- `get_all_segments()` run against a scripted response sequence. -/
def get_all_segments (script : List SegResponse) : Option SegFetchResult :=
  segLoop script []

/-! ## `find_segment` -/

/-- Substring test on lists of characters, modelling Python's
`needle in hay` for strings. -/
def charsContain (needle : List Char) : List Char → Bool
  | [] => needle.isEmpty
  | c :: t => needle.isPrefixOf (c :: t) || charsContain needle t

/-- Python's `needle in hay` on strings. -/
def strContainsStr (hay needle : String) : Bool :=
  charsContain needle.toList hay.toList

/-- Python's `s.lower()`, character by character. -/
def lowerStr (s : String) : String :=
  ⟨s.data.map Char.toLower⟩

/-- The exact-match test of `find_segment`:
`s["name"].lower() == search_lower`. -/
def exactMatch (search : String) (s : Segment) : Bool :=
  lowerStr s.name == lowerStr search

/-- The partial-match test of `find_segment`:
`search_lower in s["name"].lower()`. -/
def substrMatch (search : String) (s : Segment) : Bool :=
  strContainsStr (lowerStr s.name) (lowerStr search)

/-- `find_segment(segments, search)`: first exact case-insensitive name
match; otherwise the unique substring match; `None` when there are zero
or several substring matches. -/
def find_segment (segments : List Segment) (search : String) : Option Segment :=
  match segments.find? (fun s => exactMatch search s) with
  | some s => some s
  | none =>
      match segments.filter (fun s => substrMatch search s) with
      | [m] => some m
      | _ => none

/-! ## Overlap analysis (`main` of `analyze_segments.py`) -/

/-- `segment_profiles[a] & segment_profiles[b]` of the overlap analysis. -/
def overlapOf (A B : Finset String) : Finset String := A ∩ B

/-- `segment_profiles[a] - segment_profiles[b]` of the overlap analysis. -/
def exclusiveOf (A B : Finset String) : Finset String := A \ B

/-! ## Revenue matching (`export_campaign_revenue.py`) -/

/-- One aggregated revenue bucket as stored by
`get_all_campaign_revenue`: `{"revenue": ..., "orders": ...}`. -/
structure RevEntry where
  revenue : ℚ
  orders : Int
deriving DecidableEq

/-- A campaign row as assembled by `get_campaigns`: the CSV fields the
matching step reads plus the looked-up `message_id` (possibly `None`). -/
structure Campaign where
  campaignId : String
  name : String
  messageId : Option String
deriving DecidableEq

/-- A campaign row after the matching step of `main` assigned its
`revenue` and `orders` fields. -/
structure CampaignRevenue where
  campaignId : String
  name : String
  revenue : ℚ
  orders : Int
deriving DecidableEq

/-- One row of the metric-aggregates response after
`get_all_campaign_revenue` extracted its dimension and measurements:
the attributed message id (possibly `""`) with its summed revenue and
order count.  The list-versus-scalar measurement juggling and rounding
of lines 166-189 happen before this point and are not modelled. -/
structure AggRow where
  messageId : String
  sumValue : ℚ
  countValue : Int
deriving DecidableEq

/-- Python dict assignment `revenue_by_campaign[message_id] = ...` on a
dict modelled as an association list: overwrite the existing key or
append a new pair. -/
def insertRev (m : List (String × RevEntry)) (k : String) (v : RevEntry) :
    List (String × RevEntry) :=
  if (m.map Prod.fst).contains k then
    m.map (fun p => if p.1 = k then (k, v) else p)
  else m ++ [(k, v)]

/-- The accumulation loop of `get_all_campaign_revenue`: rows whose
attributed message id is Python-falsy (`""`) are skipped
(`if not message_id: continue`); every other row is stored under its
message id. -/
def buildRevenueMap (rows : List AggRow) : List (String × RevEntry) :=
  rows.foldl
    (fun m row =>
      if row.messageId = "" then m
      else insertRev m row.messageId ⟨row.sumValue, row.countValue⟩)
    []

/-- The per-campaign revenue-matching step of `main` (lines 315-327):
zero out `revenue`/`orders`, then copy the matched aggregate values when
the campaign's `message_id` is truthy and present in `revenue_data`. -/
def assignRevenue (revenueData : List (String × RevEntry)) (c : Campaign) :
    CampaignRevenue :=
  match c.messageId with
  | none => ⟨c.campaignId, c.name, 0, 0⟩
  | some mid =>
      if mid = "" then ⟨c.campaignId, c.name, 0, 0⟩
      else
        match revenueData.lookup mid with
        | some e => ⟨c.campaignId, c.name, e.revenue, e.orders⟩
        | none => ⟨c.campaignId, c.name, 0, 0⟩

/-- The matching loop of `main` over all campaigns. -/
def matchCampaignRevenue (campaigns : List Campaign)
    (revenueData : List (String × RevEntry)) : List CampaignRevenue :=
  campaigns.map (assignRevenue revenueData)

/-! ## Concrete scripts used by counterexamples -/

/-- A 429 response (body never inspected). -/
def rateLimited : Response :=
  ⟨429, ⟨none, none⟩⟩

/-- A successful page of `get_segment_profile_ids` in a resource with
more pages: the given ids plus a live `next` link. -/
def uniformPage (ids : List String) : Response :=
  ⟨200, ⟨some ids, some (some "https://a.klaviyo.com/api/page?cursor=k")⟩⟩

/-- A scripted resource made of successive pages that all advertise a
further page. -/
def uniformScript (pages : List (List String)) : List Response :=
  pages.map uniformPage

/-- One page then a 500: the failure happens on the second request,
after one page was decoded. -/
def scriptA : List Response :=
  [⟨200, ⟨some ["x"], some (some "https://u?c=1")⟩⟩, ⟨500, ⟨none, none⟩⟩]

/-- Two pages then a 500: the failure happens on the third request,
after two pages were decoded. -/
def scriptB : List Response :=
  [⟨200, ⟨some ["x"], some (some "https://u?c=1")⟩⟩,
   ⟨200, ⟨some [], some (some "https://u?c=2")⟩⟩, ⟨500, ⟨none, none⟩⟩]

/-- What a `get_segment_profile_ids` run surfaces to its caller and to
the terminal besides progress lines: the returned set of ids and the
status code of the `Error:` line. -/
def surfaced (r : FetchResult) : List String × Option Nat :=
  (r.ids, r.errorStatus)

/-! ## Step lemmas for the fetch loops -/

lemma fetchLoop_stop (script : List Response) (url : String) (acc : List String)
    (maxP : Nat) (reqs : List (String × Bool)) (rl pages : Nat)
    (h : ¬ acc.length < maxP) :
    fetchLoop script url acc maxP reqs rl pages =
      some ⟨acc, reqs, none, rl, pages, true⟩ := by
  cases script <;> simp [fetchLoop, h]

lemma fetchLoop_nil (url : String) (acc : List String) (maxP : Nat)
    (reqs : List (String × Bool)) (rl pages : Nat) (h : acc.length < maxP) :
    fetchLoop [] url acc maxP reqs rl pages = none := by
  simp [fetchLoop, h]

lemma fetchLoop_429 (r : Response) (rest : List Response) (url : String)
    (acc : List String) (maxP : Nat) (reqs : List (String × Bool)) (rl pages : Nat)
    (h : acc.length < maxP) (h4 : r.status = 429) :
    fetchLoop (r :: rest) url acc maxP reqs rl pages =
      fetchLoop rest url acc maxP (reqs ++ [(url, !urlHasQuery url)]) (rl + 1) pages := by
  simp [fetchLoop, h, h4]

lemma fetchLoop_err (r : Response) (rest : List Response) (url : String)
    (acc : List String) (maxP : Nat) (reqs : List (String × Bool)) (rl pages : Nat)
    (h : acc.length < maxP) (h4 : r.status ≠ 429) (h2 : r.status ≠ 200) :
    fetchLoop (r :: rest) url acc maxP reqs rl pages =
      some ⟨acc, reqs ++ [(url, !urlHasQuery url)], some r.status, rl, pages, false⟩ := by
  simp [fetchLoop, h, h4, h2]

lemma fetchLoop_ok_next (r : Response) (rest : List Response) (url u : String)
    (acc : List String) (maxP : Nat) (reqs : List (String × Bool)) (rl pages : Nat)
    (h : acc.length < maxP) (h2 : r.status = 200) (hn : pageNext r.body = some u)
    (hu : u ≠ "") :
    fetchLoop (r :: rest) url acc maxP reqs rl pages =
      fetchLoop rest u ((pageData r.body).foldl addId acc) maxP
        (reqs ++ [(url, !urlHasQuery url)]) rl (pages + 1) := by
  simp [fetchLoop, h, h2, hn, hu]

lemma fetchLoop_ok_end (r : Response) (rest : List Response) (url : String)
    (acc : List String) (maxP : Nat) (reqs : List (String × Bool)) (rl pages : Nat)
    (h : acc.length < maxP) (h2 : r.status = 200) (hn : pageNext r.body = none) :
    fetchLoop (r :: rest) url acc maxP reqs rl pages =
      some ⟨(pageData r.body).foldl addId acc, reqs ++ [(url, !urlHasQuery url)],
        none, rl, pages + 1, false⟩ := by
  simp [fetchLoop, h, h2, hn]

lemma fetchLoop_ok_empty_url (r : Response) (rest : List Response) (url : String)
    (acc : List String) (maxP : Nat) (reqs : List (String × Bool)) (rl pages : Nat)
    (h : acc.length < maxP) (h2 : r.status = 200) (hn : pageNext r.body = some "") :
    fetchLoop (r :: rest) url acc maxP reqs rl pages =
      some ⟨(pageData r.body).foldl addId acc, reqs ++ [(url, !urlHasQuery url)],
        none, rl, pages + 1, false⟩ := by
  simp [fetchLoop, h, h2, hn]

lemma segLoop_err (r : SegResponse) (rest : List SegResponse) (acc : List Segment)
    (h2 : r.status ≠ 200) :
    segLoop (r :: rest) acc = some ⟨acc, some r.status⟩ := by
  simp [segLoop, h2]

lemma segLoop_ok_next (r : SegResponse) (rest : List SegResponse) (acc : List Segment)
    (u : String) (h2 : r.status = 200) (hn : segPageNext r.body = some u) (hu : u ≠ "") :
    segLoop (r :: rest) acc =
      segLoop rest (acc ++ ((r.body.dataField.getD []).map extractSegment)) := by
  simp [segLoop, h2, hn, hu]

lemma segLoop_ok_end (r : SegResponse) (rest : List SegResponse) (acc : List Segment)
    (h2 : r.status = 200) (hn : segPageNext r.body = none) :
    segLoop (r :: rest) acc =
      some ⟨acc ++ ((r.body.dataField.getD []).map extractSegment), none⟩ := by
  simp [segLoop, h2, hn]

/-! ## Claim theorems -/

lemma fetchLoop_replicate_429 (n : Nat) (script : List Response) (url : String)
    (acc : List String) (maxP : Nat) (reqs : List (String × Bool)) (rl pages : Nat)
    (hlt : acc.length < maxP) :
    fetchLoop (List.replicate n rateLimited ++ script) url acc maxP reqs rl pages =
      fetchLoop script url acc maxP
        (reqs ++ List.replicate n (url, !urlHasQuery url)) (rl + n) pages := by
  induction n generalizing reqs rl with
  | zero => simp
  | succ n ih =>
      rw [List.replicate_succ, List.cons_append,
        fetchLoop_429 rateLimited (List.replicate n rateLimited ++ script)
          url acc maxP reqs rl pages hlt rfl, ih]
      have h1 : (reqs ++ [(url, !urlHasQuery url)]) ++
          List.replicate n (url, !urlHasQuery url) =
          reqs ++ List.replicate (n + 1) (url, !urlHasQuery url) := by
        simp [List.replicate_succ]
      have h2 : rl + 1 + n = rl + (n + 1) := by omega
      rw [h1, h2]

lemma addId_nodup (acc : List String) (i : String) (h : acc.Nodup) :
    (addId acc i).Nodup := by
  unfold addId
  split
  · exact h
  · next hni =>
      refine h.append (List.nodup_singleton i) ?_
      intro a ha hai
      rw [List.mem_singleton] at hai
      exact hni (hai ▸ ha)

lemma foldl_addId_nodup (l : List String) :
    ∀ acc : List String, acc.Nodup → (l.foldl addId acc).Nodup := by
  induction l with
  | nil => exact fun acc h => h
  | cons i t ih => exact fun acc h => ih (addId acc i) (addId_nodup acc i h)

lemma fetchLoop_nodup (script : List Response) :
    ∀ (url : String) (acc : List String) (maxP : Nat)
      (reqs : List (String × Bool)) (rl pages : Nat) (r : FetchResult),
      acc.Nodup → fetchLoop script url acc maxP reqs rl pages = some r →
      r.ids.Nodup := by
  induction script with
  | nil =>
      intro url acc maxP reqs rl pages r h heq
      by_cases hlt : acc.length < maxP
      · rw [fetchLoop_nil _ _ _ _ _ _ hlt] at heq
        exact absurd heq (by simp)
      · rw [fetchLoop_stop _ _ _ _ _ _ _ hlt] at heq
        cases heq
        exact h
  | cons hd rest ih =>
      intro url acc maxP reqs rl pages r h heq
      by_cases hlt : acc.length < maxP
      · by_cases h429 : hd.status = 429
        · rw [fetchLoop_429 _ _ _ _ _ _ _ _ hlt h429] at heq
          exact ih _ _ _ _ _ _ _ h heq
        · by_cases h200 : hd.status = 200
          · cases hn : pageNext hd.body with
            | none =>
                rw [fetchLoop_ok_end _ _ _ _ _ _ _ _ hlt h200 hn] at heq
                cases heq
                exact foldl_addId_nodup _ _ h
            | some u =>
                by_cases hu : u = ""
                · subst hu
                  rw [fetchLoop_ok_empty_url _ _ _ _ _ _ _ _ hlt h200 hn] at heq
                  cases heq
                  exact foldl_addId_nodup _ _ h
                · rw [fetchLoop_ok_next _ _ _ _ _ _ _ _ _ hlt h200 hn hu] at heq
                  exact ih _ _ _ _ _ _ _ (foldl_addId_nodup _ _ h) heq
          · rw [fetchLoop_err _ _ _ _ _ _ _ _ hlt h429 h200] at heq
            cases heq
            exact h
      · rw [fetchLoop_stop _ _ _ _ _ _ _ hlt] at heq
        cases heq
        exact h

/-- Claim C4: the accumulated collection never holds an identifier
twice.  Inserting an identifier already present leaves the accumulator
unchanged, a single insertion preserves duplicate-freedom (so the
invariant holds after every insertion step, witnessed on every prefix
of an insertion sequence), and every set of ids returned by a
`get_segment_profile_ids` run is duplicate-free. -/
theorem c4_dedup_at_insertion (acc : List String) (i : String) (ids : List String)
    (n : Nat) (script : List Response) (sid : String) (m : Nat) (r : FetchResult) :
    (i ∈ acc → addId acc i = acc) ∧
    (acc.Nodup → (addId acc i).Nodup) ∧
    ((ids.take n).foldl addId []).Nodup ∧
    (get_segment_profile_ids script sid m = some r → r.ids.Nodup) := by
  refine ⟨?_, addId_nodup acc i, foldl_addId_nodup _ [] List.nodup_nil, ?_⟩
  · intro hi
    simp [addId, hi]
  · exact fetchLoop_nodup script _ [] m [] 0 0 r List.nodup_nil

/-- Witness for C4: re-inserting a present id is a no-op; an insertion
into a duplicate-free accumulator stays duplicate-free; a three-step
insertion sequence with a repeat stays duplicate-free; a run over a
page with a duplicated id returns it once. -/
theorem c4_dedup_at_insertion_witness :
    addId ["a"] "a" = ["a"] ∧
    (addId ["a"] "b").Nodup ∧
    (((["x", "y", "x"].take 3)).foldl addId []).Nodup ∧
    (FetchResult.mk ["x"] [(profileStartUrl "S", true)] none 0 1 false).ids.Nodup := by
  refine ⟨?_, ?_, ?_, ?_⟩
  · exact (c4_dedup_at_insertion ["a"] "a" [] 0 [] "S" 0
      ⟨[], [], none, 0, 0, false⟩).1 (by decide)
  · exact (c4_dedup_at_insertion ["a"] "b" [] 0 [] "S" 0
      ⟨[], [], none, 0, 0, false⟩).2.1 (by decide)
  · exact (c4_dedup_at_insertion [] "" ["x", "y", "x"] 3 [] "S" 0
      ⟨[], [], none, 0, 0, false⟩).2.2.1
  · exact (c4_dedup_at_insertion [] "" [] 0 [⟨200, ⟨some ["x", "x"], none⟩⟩] "S" 9
      ⟨["x"], [(profileStartUrl "S", true)], none, 0, 1, false⟩).2.2.2 (by decide)

/-- Claim C6 amended: on a non-success, non-429 status both fetch loops
stop immediately — later scripted responses are never requested — and
return the partial collection accumulated so far; the failure is
surfaced only as the printed status code, with no structured error
value attached to the returned data and no page index reported. -/
theorem c6_amended_partial_on_error (r : Response) (rest : List Response)
    (url : String) (acc : List String) (maxP : Nat) (reqs : List (String × Bool))
    (rl pages : Nat) (sr : SegResponse) (srest : List SegResponse)
    (sacc : List Segment) (hlt : acc.length < maxP) (h429 : r.status ≠ 429)
    (h200 : r.status ≠ 200) (hs : sr.status ≠ 200) :
    fetchLoop (r :: rest) url acc maxP reqs rl pages =
      some ⟨acc, reqs ++ [(url, !urlHasQuery url)], some r.status, rl, pages, false⟩ ∧
    segLoop (sr :: srest) sacc = some ⟨sacc, some sr.status⟩ :=
  ⟨fetchLoop_err r rest url acc maxP reqs rl pages hlt h429 h200,
    segLoop_err sr srest sacc hs⟩

/-- Witness for the amended C6: a 500 aborts the profile loop with the
one-page partial set, a 404 aborts the segment loop with the partial
list; in both cases the remaining script is untouched. -/
theorem c6_amended_partial_on_error_witness :
    fetchLoop [⟨500, ⟨none, none⟩⟩] "u" ["x"] 50000 [] 0 1 =
      some ⟨["x"], [("u", true)], some 500, 0, 1, false⟩ ∧
    segLoop [⟨404, ⟨none, none⟩⟩] [⟨"s1", "A"⟩] = some ⟨[⟨"s1", "A"⟩], some 404⟩ := by
  simpa using c6_amended_partial_on_error ⟨500, ⟨none, none⟩⟩ [] "u" ["x"] 50000 []
    0 1 ⟨404, ⟨none, none⟩⟩ [] [⟨"s1", "A"⟩] (by decide) (by decide) (by decide)
    (by decide)

/-- Counterexample to claim C6 as stated: the failure description is
not structured and does not carry the page index.  Two runs that fail
on different pages — after one decoded page (`scriptA`) and after two
(`scriptB`) — surface exactly the same data (the same returned set and
the same printed `Error: 500`), so nothing surfaced to the caller
carries the failing page index. -/
theorem c6_counterexample :
    (get_segment_profile_ids scriptA "S" 50000).map surfaced =
      (get_segment_profile_ids scriptB "S" 50000).map surfaced ∧
    (get_segment_profile_ids scriptA "S" 50000).map FetchResult.pages ≠
      (get_segment_profile_ids scriptB "S" 50000).map FetchResult.pages := by
  decide

/-- Claim C7: a decoded page with no `data` key contributes no records
(the accumulator is unchanged and pagination follows `links.next`); a
page with no `links`/`next` key ends the collection with the records
gathered so far, ignoring any further scripted responses; an empty
first page yields an empty, non-truncated result.  The same holds for
the segments loop. -/
theorem c7_missing_keys_end_of_collection (rest : List Response) (url u : String)
    (acc : List String) (maxP rl pages : Nat) (reqs : List (String × Bool))
    (d : Option (List String)) (sid : String) (m : Nat)
    (srest : List SegResponse) (sacc : List Segment)
    (sd : Option (List RawSegment)) (su : String)
    (hlt : acc.length < maxP) (hu : u ≠ "") (hsu : su ≠ "") (hm : 0 < m) :
    fetchLoop (⟨200, ⟨none, some (some u)⟩⟩ :: rest) url acc maxP reqs rl pages =
      fetchLoop rest u acc maxP (reqs ++ [(url, !urlHasQuery url)]) rl (pages + 1) ∧
    fetchLoop (⟨200, ⟨d, none⟩⟩ :: rest) url acc maxP reqs rl pages =
      some ⟨(d.getD []).foldl addId acc, reqs ++ [(url, !urlHasQuery url)], none, rl,
        pages + 1, false⟩ ∧
    get_segment_profile_ids [⟨200, ⟨none, none⟩⟩] sid m =
      some ⟨[], [(profileStartUrl sid, !urlHasQuery (profileStartUrl sid))], none, 0,
        1, false⟩ ∧
    segLoop (⟨200, ⟨none, some (some su)⟩⟩ :: srest) sacc = segLoop srest sacc ∧
    segLoop (⟨200, ⟨sd, none⟩⟩ :: srest) sacc =
      some ⟨sacc ++ (sd.getD []).map extractSegment, none⟩ ∧
    get_all_segments [⟨200, ⟨none, none⟩⟩] = some ⟨[], none⟩ := by
  refine ⟨?_, ?_, ?_, ?_, ?_, ?_⟩
  · exact fetchLoop_ok_next ⟨200, ⟨none, some (some u)⟩⟩ rest url u acc maxP reqs
      rl pages hlt rfl rfl hu
  · exact fetchLoop_ok_end ⟨200, ⟨d, none⟩⟩ rest url acc maxP reqs rl pages hlt
      rfl rfl
  · rw [get_segment_profile_ids, fetchLoop_ok_end ⟨200, ⟨none, none⟩⟩ []
      (profileStartUrl sid) [] m [] 0 0 (by simpa using hm) rfl rfl]
    rfl
  · rw [segLoop_ok_next ⟨200, ⟨none, some (some su)⟩⟩ srest sacc su rfl rfl hsu]
    simp
  · exact segLoop_ok_end ⟨200, ⟨sd, none⟩⟩ srest sacc rfl rfl
  · rw [get_all_segments, segLoop_ok_end ⟨200, ⟨none, none⟩⟩ [] [] rfl rfl]
    rfl

/-- Witness for C7 at concrete inputs: a data-less page with a next
link continues with nothing added; a next-less page with data stops
with that data; singleton empty-page scripts give empty non-truncated
results for both loops. -/
theorem c7_missing_keys_end_of_collection_witness :
    fetchLoop [⟨200, ⟨none, some (some "v")⟩⟩] "u" ["a"] 9 [] 0 0 =
      fetchLoop [] "v" ["a"] 9 ([] ++ [("u", !urlHasQuery "u")]) 0 (0 + 1) ∧
    fetchLoop [⟨200, ⟨some ["p"], none⟩⟩] "u" ["a"] 9 [] 0 0 =
      some ⟨((some ["p"]).getD []).foldl addId ["a"],
        [] ++ [("u", !urlHasQuery "u")], none, 0, 0 + 1, false⟩ ∧
    get_segment_profile_ids [⟨200, ⟨none, none⟩⟩] "S" 5 =
      some ⟨[], [(profileStartUrl "S", !urlHasQuery (profileStartUrl "S"))], none, 0,
        1, false⟩ ∧
    segLoop [⟨200, ⟨none, some (some "w")⟩⟩] ([] : List Segment) =
      segLoop [] ([] : List Segment) ∧
    segLoop [⟨200, ⟨some [⟨"i", some "N"⟩], none⟩⟩] ([] : List Segment) =
      some ⟨[] ++ ((some [⟨"i", some "N"⟩]).getD []).map extractSegment, none⟩ ∧
    get_all_segments [⟨200, ⟨none, none⟩⟩] = some ⟨[], none⟩ :=
  c7_missing_keys_end_of_collection [] "u" "v" ["a"] 9 0 0 [] (some ["p"]) "S" 5
    [] [] (some [⟨"i", some "N"⟩]) "w" (by decide) (by decide) (by decide)
    (by decide)

lemma fetchLoop_reqs (script : List Response) :
    ∀ (url : String) (acc : List String) (maxP : Nat) (reqs : List (String × Bool))
      (rl pages : Nat) (r : FetchResult),
      fetchLoop script url acc maxP reqs rl pages = some r →
      ∃ t, r.reqs = reqs ++ t ∧ (∀ p ∈ t, p.2 = !urlHasQuery p.1) ∧
        (t = [] ∨ ∃ t2, t = (url, !urlHasQuery url) :: t2) := by
  induction script with
  | nil =>
      intro url acc maxP reqs rl pages r heq
      by_cases hlt : acc.length < maxP
      · rw [fetchLoop_nil _ _ _ _ _ _ hlt] at heq
        exact absurd heq (by simp)
      · rw [fetchLoop_stop _ _ _ _ _ _ _ hlt] at heq
        cases heq
        exact ⟨[], by simp, by simp, Or.inl rfl⟩
  | cons hd rest ih =>
      intro url acc maxP reqs rl pages r heq
      by_cases hlt : acc.length < maxP
      · by_cases h429 : hd.status = 429
        · rw [fetchLoop_429 _ _ _ _ _ _ _ _ hlt h429] at heq
          obtain ⟨t, ht, hP, -⟩ := ih _ _ _ _ _ _ _ heq
          refine ⟨(url, !urlHasQuery url) :: t, ?_, ?_, Or.inr ⟨t, rfl⟩⟩
          · rw [ht]
            simp
          · intro p hp
            rcases List.mem_cons.mp hp with h | h
            · subst h
              rfl
            · exact hP p h
        · by_cases h200 : hd.status = 200
          · cases hn : pageNext hd.body with
            | none =>
                rw [fetchLoop_ok_end _ _ _ _ _ _ _ _ hlt h200 hn] at heq
                cases heq
                refine ⟨[(url, !urlHasQuery url)], rfl, ?_, Or.inr ⟨[], rfl⟩⟩
                intro p hp
                rcases List.mem_singleton.mp hp with rfl
                rfl
            | some u =>
                by_cases hu : u = ""
                · subst hu
                  rw [fetchLoop_ok_empty_url _ _ _ _ _ _ _ _ hlt h200 hn] at heq
                  cases heq
                  refine ⟨[(url, !urlHasQuery url)], rfl, ?_, Or.inr ⟨[], rfl⟩⟩
                  intro p hp
                  rcases List.mem_singleton.mp hp with rfl
                  rfl
                · rw [fetchLoop_ok_next _ _ _ _ _ _ _ _ _ hlt h200 hn hu] at heq
                  obtain ⟨t, ht, hP, -⟩ := ih _ _ _ _ _ _ _ heq
                  refine ⟨(url, !urlHasQuery url) :: t, ?_, ?_, Or.inr ⟨t, rfl⟩⟩
                  · rw [ht]
                    simp
                  · intro p hp
                    rcases List.mem_cons.mp hp with h | h
                    · subst h
                      rfl
                    · exact hP p h
          · rw [fetchLoop_err _ _ _ _ _ _ _ _ hlt h429 h200] at heq
            cases heq
            refine ⟨[(url, !urlHasQuery url)], rfl, ?_, Or.inr ⟨[], rfl⟩⟩
            intro p hp
            rcases List.mem_singleton.mp hp with rfl
            rfl
      · rw [fetchLoop_stop _ _ _ _ _ _ _ hlt] at heq
        cases heq
        exact ⟨[], by simp, by simp, Or.inl rfl⟩

/-- Counterexample to claim C9 as stated: the source attaches the
`page[size]` params to any request whose url lacks a `?`, not only to
the first one.  With a server-supplied next url `"page2"` containing no
query string, the second request is issued with the params re-attached
(flag `true` in the request trace), not verbatim. -/
theorem c9_counterexample :
    get_segment_profile_ids
        [⟨200, ⟨some ["x"], some (some "page2")⟩⟩, ⟨200, ⟨some [], none⟩⟩]
        "S" 50000 =
      some ⟨["x"], [(profileStartUrl "S", true), ("page2", true)], none, 0, 2,
        false⟩ := by
  decide

/-- Claim C9 amended: the `page[size]` params are attached to exactly
those requests whose url contains no `?` character.  The first request
always targets the start url (params attached iff that url has no `?`,
which holds for every segment id without a `?`); a server-supplied next
url is requested verbatim only when it contains a `?`. -/
theorem c9_amended_params_iff_no_query (script : List Response) (sid : String)
    (m : Nat) (r : FetchResult)
    (h : get_segment_profile_ids script sid m = some r) :
    (∀ p ∈ r.reqs, p.2 = !urlHasQuery p.1) ∧
    (∀ q, r.reqs.head? = some q →
      q.1 = profileStartUrl sid ∧ q.2 = !urlHasQuery (profileStartUrl sid)) := by
  obtain ⟨t, ht, hP, hh⟩ :=
    fetchLoop_reqs script (profileStartUrl sid) [] m [] 0 0 r h
  rw [List.nil_append] at ht
  rw [ht]
  refine ⟨hP, ?_⟩
  intro q hq
  rcases hh with rfl | ⟨t2, rfl⟩
  · simp at hq
  · rw [List.head?_cons, Option.some.injEq] at hq
    subst hq
    exact ⟨rfl, rfl⟩

/-- Witness for the amended C9: a one-page run issues exactly one
request, to the start url with params attached. -/
theorem c9_amended_params_iff_no_query_witness :
    (∀ p ∈ (FetchResult.mk ["x"] [(profileStartUrl "S", true)] none 0 1 false).reqs,
      p.2 = !urlHasQuery p.1) ∧
    (∀ q, (FetchResult.mk ["x"] [(profileStartUrl "S", true)] none 0 1
        false).reqs.head? = some q →
      q.1 = profileStartUrl "S" ∧ q.2 = !urlHasQuery (profileStartUrl "S")) :=
  c9_amended_params_iff_no_query [⟨200, ⟨some ["x"], none⟩⟩] "S" 50000
    ⟨["x"], [(profileStartUrl "S", true)], none, 0, 1, false⟩ (by decide)

lemma foldl_addId_append (ids : List String) :
    ∀ acc : List String, (∀ i ∈ ids, i ∉ acc) → ids.Nodup →
      List.foldl addId acc ids = acc ++ ids := by
  induction ids with
  | nil =>
      intro acc _ _
      simp
  | cons i t ih =>
      intro acc hdisj hnd
      have hi : i ∉ acc := hdisj i (List.mem_cons_self i t)
      have hstep : addId acc i = acc ++ [i] := by
        simp [addId, hi]
      rw [List.foldl_cons, hstep, ih (acc ++ [i]) ?_ (List.nodup_cons.mp hnd).2]
      · simp
      · intro j hj
        rw [List.mem_append, List.mem_singleton]
        rintro (hja | rfl)
        · exact hdisj j (List.mem_cons_of_mem i hj) hja
        · exact (List.nodup_cons.mp hnd).1 hj

lemma fetchLoop_uniform (p : Nat) (pages : List (List String)) :
    ∀ (acc : List String) (url : String) (maxP : Nat)
      (reqs : List (String × Bool)) (rl pg : Nat),
      (acc ++ pages.flatten).Nodup →
      (∀ x ∈ pages, x.length = p) →
      acc.length ≤ maxP →
      p ∣ (maxP - acc.length) →
      maxP < acc.length + pages.flatten.length →
      ∃ r, fetchLoop (uniformScript pages) url acc maxP reqs rl pg = some r ∧
        r.ids.length = maxP ∧ r.truncated = true := by
  induction pages with
  | nil =>
      intro acc url maxP reqs rl pg hnd hlen hle hdvd hmore
      exfalso
      simp at hmore
      omega
  | cons ids rest ih =>
      intro acc url maxP reqs rl pg hnd hlen hle hdvd hmore
      by_cases hlt : acc.length < maxP
      · rw [List.flatten_cons, ← List.append_assoc] at hnd
        obtain ⟨hnd1, -, -⟩ := List.nodup_append.mp hnd
        obtain ⟨hacc, hids, hdisj⟩ := List.nodup_append.mp hnd1
        have hdisj2 : ∀ i ∈ ids, i ∉ acc := fun i hi hia => hdisj hia hi
        have hp : ids.length = p := hlen ids (List.mem_cons_self ids rest)
        have hgap : p ≤ maxP - acc.length :=
          Nat.le_of_dvd (by omega) hdvd
        have hsub : maxP - (acc.length + p) = (maxP - acc.length) - p := by
          omega
        obtain ⟨r, hr, hl, ht⟩ :=
          ih (acc ++ ids) "https://a.klaviyo.com/api/page?cursor=k" maxP
            (reqs ++ [(url, !urlHasQuery url)]) rl (pg + 1) hnd
            (fun x hx => hlen x (List.mem_cons_of_mem ids hx))
            (by rw [List.length_append]; omega)
            (by rw [List.length_append, hp, hsub]; exact Nat.dvd_sub' hdvd (dvd_refl p))
            (by simp only [List.flatten_cons, List.length_append] at hmore ⊢
                omega)
        refine ⟨r, ?_, hl, ht⟩
        rw [show uniformScript (ids :: rest) = uniformPage ids :: uniformScript rest
            from rfl,
          fetchLoop_ok_next (uniformPage ids) (uniformScript rest) url
            "https://a.klaviyo.com/api/page?cursor=k" acc maxP reqs rl pg hlt rfl rfl
            (by decide),
          show pageData (uniformPage ids).body = ids from rfl,
          foldl_addId_append ids acc hdisj2 hids]
        exact hr
      · have heq : acc.length = maxP := by omega
        exact ⟨⟨acc, reqs, none, rl, pg, true⟩,
          fetchLoop_stop _ _ _ _ _ _ _ hlt, heq, rfl⟩

/-- Claim C5: against a resource holding more unique records than the
cap `N`, with every page of size `p` and `p` dividing `N` evenly, the
collection loop halts with exactly `N` unique records and the run ends
truncated (the loop exits because the cap was reached while a next page
was still advertised), not exhausted. -/
theorem c5_cap_truncates (pages : List (List String)) (p N : Nat) (sid : String)
    (hnd : pages.flatten.Nodup)
    (hlen : ∀ pg ∈ pages, pg.length = p)
    (hdvd : p ∣ N)
    (hmore : N < pages.flatten.length) :
    ∃ r, get_segment_profile_ids (uniformScript pages) sid N = some r ∧
      r.ids.length = N ∧ r.ids.Nodup ∧ r.truncated = true := by
  obtain ⟨r, hr, hl, ht⟩ :=
    fetchLoop_uniform p pages [] (profileStartUrl sid) N [] 0 0
      (by simpa using hnd) hlen (Nat.zero_le N) (by simpa using hdvd)
      (by simpa using hmore)
  exact ⟨r, hr, hl, fetchLoop_nodup _ _ _ _ _ _ _ _ List.nodup_nil hr, ht⟩

/-- Witness for C5: a three-page resource of three distinct ids with
cap 2 and page size 1 halts with exactly the first two ids, truncated. -/
theorem c5_cap_truncates_witness :
    ∃ r, get_segment_profile_ids (uniformScript [["a"], ["b"], ["c"]]) "S" 2 =
        some r ∧
      r.ids.length = 2 ∧ r.ids.Nodup ∧ r.truncated = true :=
  c5_cap_truncates [["a"], ["b"], ["c"]] 1 2 "S" (by decide) (by decide) (by decide)
    (by decide)

lemma insertRev_mem (m : List (String × RevEntry)) (k : String) (v : RevEntry)
    (pr : String × RevEntry) (h : pr ∈ insertRev m k v) : pr ∈ m ∨ pr = (k, v) := by
  unfold insertRev at h
  split at h
  · obtain ⟨q, hq, hfq⟩ := List.mem_map.mp h
    by_cases hk : q.1 = k
    · rw [if_pos hk] at hfq
      exact Or.inr hfq.symm
    · rw [if_neg hk] at hfq
      exact Or.inl (hfq ▸ hq)
  · rw [List.mem_append, List.mem_singleton] at h
    exact h

lemma buildRevenueMap_aux (rows : List AggRow) :
    ∀ m : List (String × RevEntry), (∀ pr ∈ m, pr.1 ≠ "") →
      ∀ pr ∈ rows.foldl
          (fun m row =>
            if row.messageId = "" then m
            else insertRev m row.messageId ⟨row.sumValue, row.countValue⟩) m,
        pr.1 ≠ "" := by
  induction rows with
  | nil =>
      intro m hm pr hpr
      exact hm pr hpr
  | cons row rest ih =>
      intro m hm pr hpr
      rw [List.foldl_cons] at hpr
      refine ih _ ?_ pr hpr
      intro q hq
      by_cases hrow : row.messageId = ""
      · rw [if_pos hrow] at hq
        exact hm q hq
      · rw [if_neg hrow] at hq
        rcases insertRev_mem _ _ _ q hq with h | h
        · exact hm q h
        · rw [h]
          simpa using hrow

lemma buildRevenueMap_keys (rows : List AggRow) :
    ∀ pr ∈ buildRevenueMap rows, pr.1 ≠ "" :=
  buildRevenueMap_aux rows [] (by simp)

lemma lookup_some_mem (m : List (String × RevEntry)) (k : String) (e : RevEntry)
    (h : m.lookup k = some e) : (k, e) ∈ m := by
  induction m with
  | nil => simp [List.lookup] at h
  | cons pr t ih =>
      obtain ⟨a, b⟩ := pr
      simp only [List.lookup] at h
      split at h
      · next hab =>
          cases h
          have hka : k = a := by simpa using hab
          rw [hka]
          exact List.mem_cons_self _ _
      · exact List.mem_cons_of_mem _ (ih h)

/-- Claim C8: the matching step keeps every campaign (one output row
per input row), assigns zero revenue and zero orders whenever the
looked-up message id is `None` or absent from the revenue map, and
copies the matched revenue and order count whenever the id is present;
an unmatched campaign is silently recorded with zeros, not dropped. -/
theorem c8_zero_on_unmatched (campaigns : List Campaign) (rows : List AggRow)
    (c : Campaign) (hc : c ∈ campaigns) :
    assignRevenue (buildRevenueMap rows) c ∈
      matchCampaignRevenue campaigns (buildRevenueMap rows) ∧
    (matchCampaignRevenue campaigns (buildRevenueMap rows)).length =
      campaigns.length ∧
    (c.messageId = none →
      assignRevenue (buildRevenueMap rows) c = ⟨c.campaignId, c.name, 0, 0⟩) ∧
    (∀ mid, c.messageId = some mid → (buildRevenueMap rows).lookup mid = none →
      assignRevenue (buildRevenueMap rows) c = ⟨c.campaignId, c.name, 0, 0⟩) ∧
    (∀ mid e, c.messageId = some mid → (buildRevenueMap rows).lookup mid = some e →
      assignRevenue (buildRevenueMap rows) c =
        ⟨c.campaignId, c.name, e.revenue, e.orders⟩) := by
  refine ⟨?_, by simp [matchCampaignRevenue], ?_, ?_, ?_⟩
  · simpa [matchCampaignRevenue] using
      List.mem_map_of_mem (assignRevenue (buildRevenueMap rows)) hc
  · intro h
    simp [assignRevenue, h]
  · intro mid hmid hlook
    by_cases hempty : mid = ""
    · simp [assignRevenue, hmid, hempty]
    · simp [assignRevenue, hmid, hempty, hlook]
  · intro mid e hmid hlook
    have hne : mid ≠ "" := buildRevenueMap_keys rows (mid, e)
      (lookup_some_mem _ _ _ hlook)
    simp [assignRevenue, hmid, hne, hlook]

/-- Witness for C8: a matched campaign receives the aggregate's values,
a campaign with message id `None` and a campaign whose id is absent
from the map both receive zeros while staying in the output. -/
theorem c8_zero_on_unmatched_witness :
    assignRevenue (buildRevenueMap [⟨"m1", 5, 2⟩]) ⟨"cid1", "A", some "m1"⟩ =
      ⟨"cid1", "A", 5, 2⟩ ∧
    assignRevenue (buildRevenueMap [⟨"m1", 5, 2⟩]) ⟨"cid2", "B", none⟩ =
      ⟨"cid2", "B", 0, 0⟩ ∧
    assignRevenue (buildRevenueMap [⟨"m1", 5, 2⟩]) ⟨"cid3", "C", some "zz"⟩ =
      ⟨"cid3", "C", 0, 0⟩ := by
  refine ⟨?_, ?_, ?_⟩
  · exact (c8_zero_on_unmatched [⟨"cid1", "A", some "m1"⟩] [⟨"m1", 5, 2⟩]
      ⟨"cid1", "A", some "m1"⟩ (by simp)).2.2.2.2 "m1" ⟨5, 2⟩ rfl (by decide)
  · exact (c8_zero_on_unmatched [⟨"cid2", "B", none⟩] [⟨"m1", 5, 2⟩]
      ⟨"cid2", "B", none⟩ (by simp)).2.2.1 rfl
  · exact (c8_zero_on_unmatched [⟨"cid3", "C", some "zz"⟩] [⟨"m1", 5, 2⟩]
      ⟨"cid3", "C", some "zz"⟩ (by simp)).2.2.2.1 "zz" rfl (by decide)

/-- Counterexample to claim C1: in the source there is no retry cap at
all.  A sequence of five 429 responses does not terminate the loop with
a `RateLimitExceeded` error (or at all): the loop is still issuing
requests after consuming all five responses, and if a successful empty
page follows, the run succeeds after five rate-limit sleeps — more than
the claimed `max_retries = 3` — with no error surfaced. -/
theorem c1_counterexample :
    get_segment_profile_ids (List.replicate 5 rateLimited) "S" 50000 = none ∧
    get_segment_profile_ids (List.replicate 5 rateLimited ++ [⟨200, ⟨none, none⟩⟩])
        "S" 50000 =
      some ⟨[], List.replicate 6 (profileStartUrl "S", true), none, 5, 1, false⟩ := by
  decide

/-- Claim C1 amended: on HTTP 429 the loop sleeps 30 seconds and
retries the same page without any bound; there is no retry counter and
no `RateLimitExceeded` error.  A block of `n` consecutive 429 responses
is absorbed with `n` rate-limit sleeps and `n` repeated requests to the
same url, after which the loop carries on exactly as without them; in
particular an all-429 response sequence of any length leaves the loop
still requesting (it would loop forever). -/
theorem c1_amended_unbounded_retry (n : Nat) (script : List Response) (url : String)
    (acc : List String) (maxP : Nat) (reqs : List (String × Bool)) (rl pages : Nat)
    (sid : String) (hlt : acc.length < maxP) :
    fetchLoop (List.replicate n rateLimited ++ script) url acc maxP reqs rl pages =
      fetchLoop script url acc maxP
        (reqs ++ List.replicate n (url, !urlHasQuery url)) (rl + n) pages ∧
    get_segment_profile_ids (List.replicate n rateLimited) sid 50000 = none := by
  refine ⟨fetchLoop_replicate_429 n script url acc maxP reqs rl pages hlt, ?_⟩
  have h := fetchLoop_replicate_429 n [] (profileStartUrl sid) [] 50000 [] 0 0
    (by decide)
  rw [List.append_nil] at h
  rw [get_segment_profile_ids, h, fetchLoop_nil _ _ _ _ _ _ (by decide)]

/-- Witness for the amended C1 at a concrete input: three 429s before a
final empty page are absorbed with three sleeps; three 429s alone leave
the loop unfinished. -/
theorem c1_amended_unbounded_retry_witness :
    fetchLoop (List.replicate 3 rateLimited ++ [⟨200, ⟨none, none⟩⟩])
        (profileStartUrl "S") [] 50000 [] 0 0 =
      fetchLoop [⟨200, ⟨none, none⟩⟩] (profileStartUrl "S") [] 50000
        ([] ++ List.replicate 3 (profileStartUrl "S", !urlHasQuery (profileStartUrl "S")))
        (0 + 3) 0 ∧
    get_segment_profile_ids (List.replicate 3 rateLimited) "S" 50000 = none :=
  c1_amended_unbounded_retry 3 [⟨200, ⟨none, none⟩⟩] (profileStartUrl "S") [] 50000
    [] 0 0 "S" (by decide)

/-- Claim C2: `find_segment` returns a case-insensitively exact match
whenever one exists; otherwise it returns the unique substring match
when exactly one exists; with several substring matches and no exact
match, or with no match at all, it returns `none`. -/
theorem c2_find_segment_characterization (segments : List Segment) (search : String) :
    ((∃ s ∈ segments, exactMatch search s = true) →
      ∃ s, find_segment segments search = some s ∧ s ∈ segments ∧
        exactMatch search s = true) ∧
    ((∀ s ∈ segments, exactMatch search s = false) →
      ∀ m, segments.filter (fun s => substrMatch search s) = [m] →
        find_segment segments search = some m) ∧
    ((∀ s ∈ segments, exactMatch search s = false) →
      (segments.filter (fun s => substrMatch search s)).length ≠ 1 →
        find_segment segments search = none) := by
  refine ⟨?_, ?_, ?_⟩
  · rintro ⟨s, hs, hps⟩
    have h1 : (segments.find? (fun s => exactMatch search s)).isSome = true :=
      List.find?_isSome.mpr ⟨s, hs, hps⟩
    obtain ⟨t, ht⟩ := Option.isSome_iff_exists.mp h1
    exact ⟨t, by simp [find_segment, ht], List.mem_of_find?_eq_some ht,
      List.find?_some ht⟩
  · intro hnone m hm
    have h0 : segments.find? (fun s => exactMatch search s) = none :=
      List.find?_eq_none.mpr (by intro x hx; simp [hnone x hx])
    simp [find_segment, h0, hm]
  · intro hnone hlen
    have h0 : segments.find? (fun s => exactMatch search s) = none :=
      List.find?_eq_none.mpr (by intro x hx; simp [hnone x hx])
    rcases hf : segments.filter (fun s => substrMatch search s) with _ | ⟨a, _ | ⟨b, t⟩⟩
    · simp [find_segment, h0, hf]
    · exact absurd (by simp [hf]) hlen
    · simp [find_segment, h0, hf]

/-- Witness for C2: the two scenarios of the spec, one unique substring
match returned and a two-way substring ambiguity resolved to `none`. -/
theorem c2_find_segment_characterization_witness :
    find_segment [⟨"a", "No Delta 8"⟩, ⟨"b", "No THCA"⟩] "delta 8" =
      some ⟨"a", "No Delta 8"⟩ ∧
    find_segment [⟨"a", "No Delta 8"⟩, ⟨"b", "No THCA"⟩] "no" = none := by
  constructor
  · exact (c2_find_segment_characterization [⟨"a", "No Delta 8"⟩, ⟨"b", "No THCA"⟩]
      "delta 8").2.1 (by decide) ⟨"a", "No Delta 8"⟩ (by decide)
  · exact (c2_find_segment_characterization [⟨"a", "No Delta 8"⟩, ⟨"b", "No THCA"⟩]
      "no").2.2 (by decide) (by decide)

/-- Claim C3: the overlap analysis computes pairwise intersection and
exclusive difference as set operations, and for every two finite sets
of identifiers the intersection size plus the difference size equals
the size of the first set. -/
theorem c3_overlap_cardinality (A B : Finset String) :
    (overlapOf A B).card + (exclusiveOf A B).card = A.card := by
  unfold overlapOf exclusiveOf
  exact Finset.card_inter_add_card_sdiff A B

/-- Claim C10: with two or more exact case-insensitive matches,
`find_segment` returns the first one in list order (the head of
`find?`), never reporting an exact tie as ambiguous. -/
theorem c10_exact_tie_first (segments : List Segment) (search : String)
    (h2 : 2 ≤ (segments.filter (fun s => exactMatch search s)).length) :
    find_segment segments search = segments.find? (fun s => exactMatch search s) ∧
    ∃ s, segments.find? (fun s => exactMatch search s) = some s := by
  have hne : segments.filter (fun s => exactMatch search s) ≠ [] := by
    intro h
    rw [h] at h2
    simp at h2
  obtain ⟨x, hx⟩ := List.exists_mem_of_ne_nil _ hne
  have hx2 := List.mem_filter.mp hx
  have hsome : (segments.find? (fun s => exactMatch search s)).isSome = true :=
    List.find?_isSome.mpr ⟨x, hx2.1, hx2.2⟩
  obtain ⟨t, ht⟩ := Option.isSome_iff_exists.mp hsome
  exact ⟨by simp [find_segment, ht], t, ht⟩

/-- Witness for C10: two exact matches differing only in case; the
first in list order is returned. -/
theorem c10_exact_tie_first_witness :
    find_segment [⟨"1", "Alpha"⟩, ⟨"2", "ALPHA"⟩] "alpha" =
      List.find? (fun s => exactMatch "alpha" s) [⟨"1", "Alpha"⟩, ⟨"2", "ALPHA"⟩] ∧
    ∃ s, List.find? (fun s => exactMatch "alpha" s) [⟨"1", "Alpha"⟩, ⟨"2", "ALPHA"⟩] =
      some s :=
  c10_exact_tie_first [⟨"1", "Alpha"⟩, ⟨"2", "ALPHA"⟩] "alpha" (by decide)

end Klaviyo
